import Mathlib

/-!
Verification development for the sauna-booking dashboard pipeline
(src/dashboard.py).  The Python source is shallowly embedded: pandas
dataframes become lists of row structures together with Boolean flags
recording which physical columns the fetched data carries, timestamps
are rationals measured in hours, numpy rounding is modelled as
round-half-to-even on rationals, and every pipeline stage becomes a
total Lean function translated line by line from the source.
-/

/-- Round half to even (numpy / pandas `.round()` tie rule) from `ℚ` to `ℤ`. -/
def rndNE (x : ℚ) : ℤ :=
  if x - (⌊x⌋ : ℚ) < 1/2 then ⌊x⌋
  else if 1/2 < x - (⌊x⌋ : ℚ) then ⌊x⌋ + 1
  else if ⌊x⌋ % 2 = 0 then ⌊x⌋ else ⌊x⌋ + 1

/-- `Series.round(2)`: round to two decimal places, half to even. -/
def round2 (x : ℚ) : ℚ := ((rndNE (x * 100) : ℤ) : ℚ) / 100

lemma rndNE_floor_or (x : ℚ) : rndNE x = ⌊x⌋ ∨ rndNE x = ⌊x⌋ + 1 := by
  unfold rndNE
  split_ifs <;> simp

lemma rndNE_nonneg (x : ℚ) (hx : 0 ≤ x) : 0 ≤ rndNE x := by
  have hf : (0 : ℤ) ≤ ⌊x⌋ := Int.le_floor.mpr (by exact_mod_cast hx)
  rcases rndNE_floor_or x with h | h <;> rw [h] <;> omega

lemma rndNE_le (x : ℚ) (B : ℤ) (h : x ≤ (B : ℚ)) : rndNE x ≤ B := by
  have hfx : (⌊x⌋ : ℚ) ≤ x := Int.floor_le x
  have hfB : ⌊x⌋ ≤ B := by
    have : (⌊x⌋ : ℚ) ≤ (B : ℚ) := le_trans hfx h
    exact_mod_cast this
  have hstep : 1/2 ≤ x - (⌊x⌋ : ℚ) → ⌊x⌋ + 1 ≤ B := by
    intro hr
    have h1 : (⌊x⌋ : ℚ) ≤ x - 1/2 := by linarith
    have h2 : (⌊x⌋ : ℚ) < (B : ℚ) := by linarith
    have h3 : ⌊x⌋ < B := by exact_mod_cast h2
    omega
  unfold rndNE
  split_ifs with h1 h2 h3
  · exact hfB
  · exact hstep (not_lt.mp h1)
  · exact hfB
  · exact hstep (not_lt.mp h1)

lemma round2_nonneg (x : ℚ) (h0 : 0 ≤ x) : 0 ≤ round2 x := by
  unfold round2
  have : (0 : ℤ) ≤ rndNE (x * 100) := rndNE_nonneg _ (by positivity)
  have : (0 : ℚ) ≤ ((rndNE (x * 100) : ℤ) : ℚ) := by exact_mod_cast this
  positivity

lemma round2_le (x : ℚ) (h1 : x ≤ 100) : round2 x ≤ 100 := by
  unfold round2
  have hb : rndNE (x * 100) ≤ 10000 := by
    apply rndNE_le
    push_cast
    linarith
  have hb' : ((rndNE (x * 100) : ℤ) : ℚ) ≤ 10000 := by exact_mod_cast hb
  rw [div_le_iff₀ (by norm_num : (0:ℚ) < 100)]
  linarith

/-- Chronological sort key used for monthly buckets: `year*12 + month`. -/
def month_order (k : ℤ × ℤ) : ℤ := k.1 * 12 + k.2

/-- The fixed analysis start boundary (December 2024):
`(year > 2024) | ((year == 2024) & (month >= 12))`. -/
def start_boundary (y m : ℤ) : Bool :=
  decide (2024 < y) || (decide (y = 2024) && decide (12 ≤ m))

/-- `sort_values('month_order')`: stable sort by `year*12 + month` of the
row key extracted by `keyf`. -/
def sortByMonthOrder {α : Type} (keyf : α → ℤ × ℤ) (l : List α) : List α :=
  @List.insertionSort α (fun a b => month_order (keyf a) ≤ month_order (keyf b))
    (fun _ _ => Int.decLe _ _) l

lemma mem_sortByMonthOrder {α : Type} (keyf : α → ℤ × ℤ) (l : List α) (a : α) :
    a ∈ sortByMonthOrder keyf l ↔ a ∈ l :=
  (List.perm_insertionSort _ _).mem_iff

lemma sorted_sortByMonthOrder {α : Type} (keyf : α → ℤ × ℤ) (l : List α) :
    List.Sorted (fun a b => month_order (keyf a) ≤ month_order (keyf b))
      (sortByMonthOrder keyf l) := by
  haveI : IsTotal α (fun a b => month_order (keyf a) ≤ month_order (keyf b)) :=
    ⟨fun a b => le_total _ _⟩
  haveI : IsTrans α (fun a b => month_order (keyf a) ≤ month_order (keyf b)) :=
    ⟨fun _ _ _ h1 h2 => le_trans h1 h2⟩
  exact List.sorted_insertionSort _ _

/-- `groupby` emits its group keys in ascending lexicographic key order. -/
def sortLex (l : List (ℤ × ℤ)) : List (ℤ × ℤ) :=
  @List.insertionSort _ (fun a b => a.1 < b.1 ∨ (a.1 = b.1 ∧ a.2 ≤ b.2))
    (fun a b => inferInstanceAs (Decidable (a.1 < b.1 ∨ (a.1 = b.1 ∧ a.2 ≤ b.2)))) l

lemma mem_sortLex (l : List (ℤ × ℤ)) (a : ℤ × ℤ) : a ∈ sortLex l ↔ a ∈ l :=
  (List.perm_insertionSort _ _).mem_iff

/-- Substring test on character lists: does `needle` occur in `hay`? -/
def listHead : List Char → List Char → Bool
  | [], _ => true
  | _ :: _, [] => false
  | a :: as, b :: bs => a == b && listHead as bs

def listContainsSub (needle hay : List Char) : Bool :=
  match hay with
  | [] => needle.isEmpty
  | _ :: t => listHead needle hay || listContainsSub needle t

/-!
## Remote fetch (`fetch_from_directus`, src/dashboard.py lines 72-80)

The HTTP interaction is abstracted to its outcome: either the transport
raised (connection error, timeout, redirect loop, ...) or a final
response was delivered carrying a status code and, when the body was
JSON with a `data` member, the decoded record list (`none` models a
body on which `response.json()["data"]` raises).  `raise_for_status`
raises exactly for status codes 400-599.
-/

inductive FetchOutcome (α : Type) : Type
  | transportError : FetchOutcome α
  | response (status : Nat) (data : Option (List α)) : FetchOutcome α
deriving DecidableEq

/-- `requests.Response.raise_for_status` raises iff `400 <= status < 600`. -/
def raise_for_status_raises (s : Nat) : Bool := decide (400 ≤ s) && decide (s < 600)

/-- The fetch wrapper: any exception is caught, surfaced via `st.error`
(the returned Boolean), and an empty table is returned. -/
def fetch_from_directus {α : Type} (o : FetchOutcome α) : List α × Bool :=
  match o with
  | .transportError => ([], true)
  | .response s d =>
    if raise_for_status_raises s then ([], true)
    else
      match d with
      | none => ([], true)
      | some rows => (rows, false)

/-- Global summary metrics computed only when all three tables loaded. -/
structure SummaryMetrics where
  total_bookings : Nat
  total_coupons : Nat
  total_slots : Nat
deriving DecidableEq

/-- Lines 177-180: if any of the three tables is empty the pipeline
stops (`st.stop`) with a user-visible error before any metrics. -/
def summary_stage {α β γ : Type} (b : List α) (c : List β) (s : List γ) :
    Option SummaryMetrics :=
  if b.isEmpty || c.isEmpty || s.isEmpty then none
  else some ⟨b.length, c.length, s.length⟩

/-!
## User-email resolution (lines 88-106 and 128-146)

A raw `user` cell is either an embedded object (a dict, possibly
without a usable `email` member) or some other value (a bare foreign
key id, null, ...).  A dataframe column either exists for the whole
table or not, recorded by the `has...` flags of the table structures.
-/

inductive UserCell : Type
  | obj (email : Option String) : UserCell
  | other : UserCell
deriving DecidableEq

/-- Element-wise extraction
`x.get('email') if isinstance(x, dict) else None`. -/
def extractEmail : UserCell → Option String
  | .obj e => e
  | .other => none

/-- `isinstance(df['user'].iloc[0], dict) and 'email' in df['user'].iloc[0]`:
the first observed `user` value is a dict exposing an email member. -/
def headEmailObj : Option UserCell → Bool
  | some (.obj (some _)) => true
  | _ => false

/-- The shared resolution chain for `user_email` (identical in
`load_bookings_data` and `load_coupons_data`).  Returns the resolved
column and the `user_email_found` flag.  Note the source uses
`elif 'user.email' in df.columns`, so the flat column is consulted only
when no `user` column exists at all. -/
def resolve_user_email (hasUser hasUserDotEmail : Bool)
    (userCol : List UserCell) (dotCol : List (Option String)) :
    List (Option String) × Bool :=
  if hasUser then
    if headEmailObj userCol.head? then (userCol.map extractEmail, true)
    else (userCol.map fun _ => some "unknown", false)
  else if hasUserDotEmail then
    (dotCol, true)
  else
    (userCol.map fun _ => some "unknown", false)

lemma resolve_user_email_not_found (hU hD : Bool) (uc : List UserCell)
    (dc : List (Option String))
    (h : (resolve_user_email hU hD uc dc).2 = false) :
    (resolve_user_email hU hD uc dc).1 = uc.map fun _ => some "unknown" := by
  unfold resolve_user_email at h ⊢
  split_ifs at h ⊢ with h1 h2 h3 <;> simp_all

/-- Helper: zipping a list with a constant column produced from it. -/
lemma zip_map_of_self {α β : Type} (rs : List α) (g : α → β) :
    rs.zip (rs.map g) = rs.map fun r => (r, g r) := by
  induction rs with
  | nil => rfl
  | cons a t ih => simp [ih]

/-!
## Coupons normalization (`load_coupons_data`, lines 123-157)
-/

structure CRow where
  user : UserCell
  userDotEmail : Option String
  ctype : Option String
deriving DecidableEq

structure CTable where
  hasUser : Bool
  hasUserDotEmail : Bool
  rows : List CRow
deriving DecidableEq

/-- A coupon row after the `user_email` column was added. -/
structure CNRow where
  raw : CRow
  user_email : Option String
deriving DecidableEq

def coupons_resolution (t : CTable) : List (Option String) × Bool :=
  resolve_user_email t.hasUser t.hasUserDotEmail
    (t.rows.map (·.user)) (t.rows.map (·.userDotEmail))

def couponRowsWithEmail (t : CTable) : List CNRow :=
  (t.rows.zip (coupons_resolution t).1).map fun q => ⟨q.1, q.2⟩

/-- The fixed internal-staff name fragments of line 150. -/
def excluded_users : List String := ["frej", "andre", "oscar", "charl", "jenny"]

/-- `.str.lower()`: lowercase a string, modelled on its character list
(the staff fragments and emails are ASCII). -/
def lowerData (s : String) : List Char := s.data.map Char.toLower

/-- `'|'.join(excluded_users)` used with `str.contains`: does the
(already lowercased) character list contain any fragment as a
substring? -/
def containsAnyFrag (s : List Char) : Bool :=
  excluded_users.any fun f => listContainsSub f.data s

/-- Row retention test of line 151,
`~coupons_df['user_email'].str.lower().str.contains(...)`, for a row
whose email is present: keep it iff the lowercased email contains no
staff fragment.  A row with a missing email never reaches this test
(see `load_coupons_data`); its branch value is irrelevant. -/
def coupon_email_pass (nr : CNRow) : Bool :=
  match nr.user_email with
  | some e => !(containsAnyFrag (lowerData e))
  | none => true

/-- `load_coupons_data`: resolve emails, then (only when an email column
was found) drop rows whose lowercased email contains a staff fragment.
When any resolved email is missing, `.str.contains` puts NA in the mask
and the unary `~` / boolean masking of line 151 raises; the bare
`except` at line 153 then returns the table unfiltered, so the filter
runs only when every resolved email is present. -/
def load_coupons_data (t : CTable) : List CNRow :=
  if t.rows.isEmpty then [] else
  if (coupons_resolution t).2 then
    if (couponRowsWithEmail t).all (fun q => q.user_email.isSome) then
      (couponRowsWithEmail t).filter coupon_email_pass
    else couponRowsWithEmail t
  else couponRowsWithEmail t

/-!
## Bookings normalization (`load_bookings_data`, lines 83-120)

A raw booking row carries every physical shape the slot relation can
arrive in (embedded object, flat dotted columns, bare columns), the
user cell, `status`, `date_created` and `booked_seats`.
-/

inductive SlotCell : Type
  | obj (start_time : Option ℚ) (end_time : Option ℚ)
      (description : Option String) : SlotCell
  | other : SlotCell
deriving DecidableEq

structure BRow where
  user : UserCell
  userDotEmail : Option String
  slot : SlotCell
  slotDotStart : Option ℚ
  slotDotEnd : Option ℚ
  slotDotDesc : Option String
  bareStart : Option ℚ
  bareEnd : Option ℚ
  bareDesc : Option String
  date_created : Option ℚ
  status : Option String
  booked_seats : Option ℤ
deriving DecidableEq

structure BTable where
  hasUser : Bool
  hasUserDotEmail : Bool
  hasSlot : Bool
  hasSlotDotStart : Bool
  hasSlotDotEnd : Bool
  hasSlotDotDesc : Bool
  hasStart : Bool
  hasEnd : Bool
  hasDesc : Bool
  hasDateCreated : Bool
  hasStatus : Bool
  rows : List BRow
deriving DecidableEq

/-- A booking row after the `user_email` column was added. -/
structure NRow where
  raw : BRow
  user_email : Option String
deriving DecidableEq

def bookings_resolution (t : BTable) : List (Option String) × Bool :=
  resolve_user_email t.hasUser t.hasUserDotEmail
    (t.rows.map (·.user)) (t.rows.map (·.userDotEmail))

def bookingRowsWithEmail (t : BTable) : List NRow :=
  (t.rows.zip (bookings_resolution t).1).map fun q => ⟨q.1, q.2⟩

/-- Line 110: drop the operator test account (only when emails found).
An object-dtype comparison with a missing value yields True for `!=`,
so rows without an email are retained here. -/
def not_test_account (nr : NRow) : Bool :=
  nr.user_email != some "frej.andreassen@gmail.com"

/-- Lines 113-114: keep only bookings with null `status` (when the
column exists). -/
def statusPass (hasStatus : Bool) (r : BRow) : Bool :=
  !hasStatus || (r.status == none)

/-- `load_bookings_data`: resolve emails, drop the test account when an
email column was found, then drop rows with a non-null status. -/
def load_bookings_data (t : BTable) : List NRow :=
  if t.rows.isEmpty then [] else
  (if (bookings_resolution t).2 then
      (bookingRowsWithEmail t).filter not_test_account
    else bookingRowsWithEmail t).filter
    fun nr => statusPass t.hasStatus nr.raw

/-!
## Slot-field resolution for bookings (lines 196-273)

Five strategies are attempted in order on the already-filtered
bookings table.  Timestamps are modelled as rationals in hours and
`pd.to_datetime` on an already-typed value is the identity, so the
strict re-parse of strategy 3 extracts the same per-element values as
strategy 1; only its trigger condition differs.  With an empty table
that still has a `slot` column, strategy 3 evaluates
`df['slot'].iloc[0]`, which raises, landing in the
`except` branch of line 265 (placeholder date, description `Error`).
-/

inductive SlotStrat : Type
  | s1 | s2 | s3 | s4 | fallback | errPath
deriving DecidableEq

def slotObjStart : SlotCell → Option ℚ
  | .obj s _ _ => s
  | .other => none

def slotObjEnd : SlotCell → Option ℚ
  | .obj _ e _ => e
  | .other => none

def slotObjDesc : SlotCell → String
  | .obj _ _ d => d.getD ""
  | .other => ""

/-- `'start_time' in slot_sample and 'end_time' in slot_sample` on the
first observed slot value (which must be a dict). -/
def headSlotHasTimes : Option NRow → Bool
  | some nr =>
    match nr.raw.slot with
    | .obj s e _ => s.isSome && e.isSome
    | .other => false
  | none => false

def headSlotIsObj : Option NRow → Bool
  | some nr =>
    match nr.raw.slot with
    | .obj _ _ _ => true
    | .other => false
  | none => false

/-- Which resolution strategy fires, in source order. -/
def slotStrat (t : BTable) (rows : List NRow) : SlotStrat :=
  if t.hasSlot && !rows.isEmpty && headSlotHasTimes rows.head? then .s1
  else if t.hasSlotDotStart && t.hasSlotDotEnd then .s2
  else if t.hasSlot && rows.isEmpty then .errPath
  else if t.hasSlot && headSlotIsObj rows.head? then .s3
  else if t.hasStart && t.hasEnd then .s4
  else .fallback

/-- Fixed placeholder date `2024-01-01`, in hours since the epoch. -/
def placeholder_date : ℚ := 473352

/-- A booking row after slot resolution: canonical slot columns added. -/
structure ProcRow where
  raw : BRow
  user_email : Option String
  slot_start_time : Option ℚ
  slot_end_time : Option ℚ
  slot_description : Option String
deriving DecidableEq

/-- Per-row column assignment of the strategy that fired. -/
def applySlotFields (t : BTable) (strat : SlotStrat) (nr : NRow) : ProcRow :=
  match strat with
  | .s1 =>
    ⟨nr.raw, nr.user_email, slotObjStart nr.raw.slot, slotObjEnd nr.raw.slot,
      some (slotObjDesc nr.raw.slot)⟩
  | .s2 =>
    ⟨nr.raw, nr.user_email, nr.raw.slotDotStart, nr.raw.slotDotEnd,
      if t.hasSlotDotDesc then nr.raw.slotDotDesc else some ""⟩
  | .s3 =>
    ⟨nr.raw, nr.user_email, slotObjStart nr.raw.slot, slotObjEnd nr.raw.slot,
      some (slotObjDesc nr.raw.slot)⟩
  | .s4 =>
    ⟨nr.raw, nr.user_email, nr.raw.bareStart, nr.raw.bareEnd,
      if t.hasDesc then nr.raw.bareDesc else some ""⟩
  | .fallback =>
    if t.hasDateCreated then
      ⟨nr.raw, nr.user_email, nr.raw.date_created,
        nr.raw.date_created.map (· + 1), some "Unknown"⟩
    else
      ⟨nr.raw, nr.user_email, some placeholder_date,
        some (placeholder_date + 1), some "Unknown"⟩
  | .errPath =>
    ⟨nr.raw, nr.user_email, some placeholder_date,
      some (placeholder_date + 1), some "Error"⟩

/-- Bookings after normalization and slot resolution. -/
def process_bookings (t : BTable) : List ProcRow :=
  (load_bookings_data t).map
    (applySlotFields t (slotStrat t (load_bookings_data t)))

/-!
## Feature derivation (lines 305-307)

`slot_length` is the slot duration in hours rounded half-to-even (the
numpy tie rule of `Series.round()`); `int(x)` on the already-integral
rounded value is the identity, so the category function takes the
rounded integer directly.
-/

/-- `(slot_end_time - slot_start_time).dt.total_seconds() / 3600`,
rounded to the nearest whole hour. -/
def slot_length (startT endT : ℚ) : ℤ := rndNE (endT - startT)

/-- Line 307: `f"{int(x)} timme" if x <= 1 else
(f"{int(x)} timmar" if x <= 2 else "3+ timmar")`. -/
def slot_length_category (x : ℤ) : String :=
  if x ≤ 1 then toString x ++ " timme"
  else if x ≤ 2 then toString x ++ " timmar"
  else "3+ timmar"

/-- The three buckets the specification enumerates. -/
def bucket_strings : List String := ["1 timme", "2 timmar", "3+ timmar"]

/-- Position of a bucket label in the bucket ordering. -/
def bucket_rank (s : String) : ℕ :=
  if s = "1 timme" then 0 else if s = "2 timmar" then 1 else 2

/-!
## Slots table and `used_seats` (lines 315-327, 520-553)

An embedded booking inside a slot is a dict cell that may or may not
carry a `booked_seats` member, whose value may or may not be numeric.
`used_seats` is assigned at line 324 (`10 - available_seats`) or at
line 327 (`0`), unconditionally, before the guard
`'used_seats' not in slots_df.columns` of line 538 is evaluated, so
that guard is always false: `used_seats_column_present` records this
pipeline fact.
-/

inductive SeatVal : Type
  | num (n : ℤ) : SeatVal
  | nonNumeric : SeatVal
deriving DecidableEq

inductive BookingCell : Type
  | obj (booked_seats : Option SeatVal) : BookingCell
  | other : BookingCell
deriving DecidableEq

/-- Contribution of one embedded booking inside `count_booked_seats`:
a dict with a numeric `booked_seats` member adds its value, anything
else adds nothing. -/
def seatContribution : BookingCell → ℤ
  | .obj (some (.num n)) => n
  | _ => 0

/-- Lines 540-551, `count_booked_seats`: a cell that is not a list, or
an empty list, counts 0; otherwise the numeric seat counts are summed. -/
def count_booked_seats : Option (List BookingCell) → ℤ
  | none => 0
  | some [] => 0
  | some l => (l.map seatContribution).sum

structure SlotRow where
  year : ℤ
  month : ℤ
  available_seats : Option ℤ
  bookings : Option (List BookingCell)
deriving DecidableEq

structure SlotsTable where
  hasAvailable : Bool
  hasBookings : Bool
  rows : List SlotRow
deriving DecidableEq

/-- After lines 321-327, `used_seats` is a column of the slots table in
both branches of the `available_seats` check. -/
def used_seats_column_present : Bool := true

/-- Value of `used_seats` per row from lines 323-327 combined with the
numeric coercion of line 535 (`10 - NA` is NA, then `fillna(0)`). -/
def usedSeatsVal (hasAvailable : Bool) (r : SlotRow) : ℤ :=
  if hasAvailable then
    match r.available_seats with
    | some a => 10 - a
    | none => 0
  else 0

/-- Line 538: the embedded-bookings summation replaces the column only
when `bookings` exists and `used_seats` does not. -/
def rowUsedSeats (t : SlotsTable) (r : SlotRow) : ℤ :=
  if t.hasBookings && !used_seats_column_present then count_booked_seats r.bookings
  else usedSeatsVal t.hasAvailable r

/-- The `used_seats` column as the utilization stage consumes it. -/
def slotsUsedSeats (t : SlotsTable) : List ℤ := t.rows.map (rowUsedSeats t)

/-!
## Monthly aggregations (lines 388-417, 556-591, 629-633)
-/

def slotKey (r : SlotRow) : ℤ × ℤ := (r.year, r.month)

def slotGroupRows (t : SlotsTable) (k : ℤ × ℤ) : List SlotRow :=
  t.rows.filter fun r => slotKey r == k

/-- Group sum of `total_capacity` (the constant 10 per slot). -/
def slotGroupCapacity (t : SlotsTable) (k : ℤ × ℤ) : ℤ :=
  ((slotGroupRows t k).map fun _ => (10 : ℤ)).sum

/-- Group sum of `used_seats`. -/
def slotGroupUsed (t : SlotsTable) (k : ℤ × ℤ) : ℤ :=
  ((slotGroupRows t k).map (rowUsedSeats t)).sum

/-- Lines 565-569: guarded division, rounded to two decimals. -/
def utilizationRate (used cap : ℤ) : ℚ :=
  if 0 < cap then round2 ((used : ℚ) / (cap : ℚ) * 100) else 0

structure MonthlySlotRow where
  year : ℤ
  month : ℤ
  total_capacity : ℤ
  used_seats : ℤ
  unused_seats : ℤ
  utilization_rate : ℚ
deriving DecidableEq

def msKey (row : MonthlySlotRow) : ℤ × ℤ := (row.year, row.month)

def mkMonthlySlotRow (t : SlotsTable) (k : ℤ × ℤ) : MonthlySlotRow :=
  ⟨k.1, k.2, slotGroupCapacity t k, slotGroupUsed t k,
    slotGroupCapacity t k - slotGroupUsed t k,
    utilizationRate (slotGroupUsed t k) (slotGroupCapacity t k)⟩

/-- Lines 556-591: group slots by (year, month), aggregate, filter to
the analysis start boundary, sort chronologically. -/
def monthly_slots (t : SlotsTable) : List MonthlySlotRow :=
  sortByMonthOrder msKey
    (((sortLex (t.rows.map slotKey).dedup).map (mkMonthlySlotRow t)).filter
      fun row => start_boundary row.year row.month)

/-- Lines 629-633: overall utilization, unrounded, zero-guarded. -/
def overall_utilization_rate (used cap : ℤ) : ℚ :=
  if 0 < cap then (used : ℚ) / (cap : ℚ) * 100 else 0

def total_capacity_all (t : SlotsTable) : ℤ := (t.rows.map fun _ => (10 : ℤ)).sum

def total_used_all (t : SlotsTable) : ℤ := (t.rows.map (rowUsedSeats t)).sum

def overall_rate (t : SlotsTable) : ℚ :=
  overall_utilization_rate (total_used_all t) (total_capacity_all t)

/-- A booking record as the monthly aggregation of lines 388-417 sees
it: calendar features already derived, `booked_seats` column value. -/
structure MRec where
  year : ℤ
  month : ℤ
  booked_seats : ℤ
deriving DecidableEq

def mKey (r : MRec) : ℤ × ℤ := (r.year, r.month)

def mGroupRows (rs : List MRec) (k : ℤ × ℤ) : List MRec :=
  rs.filter fun r => mKey r == k

/-- `['booked_seats'].sum()` when the column exists, `.size()` else. -/
def mGroupValue (hasSeats : Bool) (rs : List MRec) (k : ℤ × ℤ) : ℤ :=
  if hasSeats then ((mGroupRows rs k).map (·.booked_seats)).sum
  else (mGroupRows rs k).length

/-- Lines 388-417: group bookings by (year, month), sum seats (or count
rows), filter to the analysis start boundary, sort chronologically. -/
def monthly_bookings (hasSeats : Bool) (rs : List MRec) : List ((ℤ × ℤ) × ℤ) :=
  sortByMonthOrder Prod.fst
    (((sortLex (rs.map mKey).dedup).map fun k => (k, mGroupValue hasSeats rs k)).filter
      fun p => start_boundary p.1.1 p.1.2)

lemma mem_monthly_bookings (hs : Bool) (rs : List MRec) (p : (ℤ × ℤ) × ℤ) :
    p ∈ monthly_bookings hs rs ↔
      p.1 ∈ rs.map mKey ∧ start_boundary p.1.1 p.1.2 = true ∧
        p.2 = mGroupValue hs rs p.1 := by
  unfold monthly_bookings
  rw [mem_sortByMonthOrder, List.mem_filter, List.mem_map]
  constructor
  · rintro ⟨⟨k, hk, rfl⟩, hb⟩
    rw [mem_sortLex, List.mem_dedup] at hk
    exact ⟨hk, hb, rfl⟩
  · rintro ⟨hk, hb, hv⟩
    refine ⟨⟨p.1, ?_, ?_⟩, hb⟩
    · rw [mem_sortLex, List.mem_dedup]; exact hk
    · cases p with
      | mk k v => simp only at hv; rw [hv]

lemma mem_monthly_slots (t : SlotsTable) (row : MonthlySlotRow) :
    row ∈ monthly_slots t ↔
      (row.year, row.month) ∈ t.rows.map slotKey ∧
        start_boundary row.year row.month = true ∧
        row = mkMonthlySlotRow t (row.year, row.month) := by
  unfold monthly_slots
  rw [mem_sortByMonthOrder, List.mem_filter, List.mem_map]
  constructor
  · rintro ⟨⟨k, hk, rfl⟩, hb⟩
    rw [mem_sortLex, List.mem_dedup] at hk
    have hyk : (mkMonthlySlotRow t k).year = k.1 := rfl
    have hmk : (mkMonthlySlotRow t k).month = k.2 := rfl
    refine ⟨?_, hb, ?_⟩
    · rw [hyk, hmk]; exact hk
    · rw [hyk, hmk]
  · rintro ⟨hk, hb, hrow⟩
    refine ⟨⟨(row.year, row.month), ?_, hrow.symm⟩, hb⟩
    rw [mem_sortLex, List.mem_dedup]; exact hk

lemma sum_const_ten (l : List SlotRow) : ((l.map fun _ => (10 : ℤ)).sum) = 10 * l.length := by
  induction l with
  | nil => simp
  | cons a t ih => simp [ih]; ring

lemma slotGroupCapacity_pos (t : SlotsTable) (k : ℤ × ℤ)
    (h : k ∈ t.rows.map slotKey) : 0 < slotGroupCapacity t k := by
  rcases List.mem_map.mp h with ⟨r, hr, hrk⟩
  have hmem : r ∈ slotGroupRows t k := by
    rw [slotGroupRows, List.mem_filter]
    exact ⟨hr, by rw [hrk]; exact beq_self_eq_true k⟩
  have hne : slotGroupRows t k ≠ [] := List.ne_nil_of_mem hmem
  have hlen : 0 < (slotGroupRows t k).length := List.length_pos.mpr hne
  rw [slotGroupCapacity, sum_const_ten]
  have : (1 : ℤ) ≤ (slotGroupRows t k).length := by exact_mod_cast hlen
  linarith

lemma rowUsedSeats_bounds (t : SlotsTable) (r : SlotRow)
    (h : ∀ a, r.available_seats = some a → 0 ≤ a ∧ a ≤ 10) :
    0 ≤ rowUsedSeats t r ∧ rowUsedSeats t r ≤ 10 := by
  unfold rowUsedSeats usedSeatsVal used_seats_column_present
  simp only [Bool.not_true, Bool.and_false, Bool.false_eq_true, if_false]
  by_cases ha : t.hasAvailable
  · simp only [ha, if_true]
    cases hav : r.available_seats with
    | none => norm_num
    | some a =>
      have := h a hav
      simp only []
      constructor <;> linarith [this.1, this.2]
  · simp only [ha, Bool.false_eq_true, if_false]
    norm_num

lemma slotGroup_used_bounds (t : SlotsTable) (k : ℤ × ℤ)
    (h : ∀ r ∈ t.rows, ∀ a, r.available_seats = some a → 0 ≤ a ∧ a ≤ 10) :
    0 ≤ slotGroupUsed t k ∧ slotGroupUsed t k ≤ slotGroupCapacity t k := by
  have hsub : ∀ r ∈ slotGroupRows t k, r ∈ t.rows := by
    intro r hr
    exact (List.mem_filter.mp hr).1
  constructor
  · apply List.sum_nonneg
    intro x hx
    rcases List.mem_map.mp hx with ⟨r, hr, rfl⟩
    exact (rowUsedSeats_bounds t r (h r (hsub r hr))).1
  · apply List.sum_le_sum
    intro r hr
    exact (rowUsedSeats_bounds t r (h r (hsub r hr))).2

lemma utilizationRate_bounds_aux (u c : ℤ) (h0 : 0 ≤ u) (huc : u ≤ c)
    (hc : 0 < c) : 0 ≤ utilizationRate u c ∧ utilizationRate u c ≤ 100 := by
  unfold utilizationRate
  rw [if_pos hc]
  have hcq : (0 : ℚ) < (c : ℚ) := by exact_mod_cast hc
  have h0q : (0 : ℚ) ≤ (u : ℚ) := by exact_mod_cast h0
  have hucq : (u : ℚ) ≤ (c : ℚ) := by exact_mod_cast huc
  have hdiv0 : (0 : ℚ) ≤ (u : ℚ) / (c : ℚ) := div_nonneg h0q hcq.le
  have hdiv1 : (u : ℚ) / (c : ℚ) ≤ 1 := (div_le_one hcq).mpr hucq
  exact ⟨round2_nonneg _ (by linarith), round2_le _ (by linarith)⟩

lemma couponRowsWithEmail_not_found (t : CTable)
    (h : (coupons_resolution t).2 = false) :
    couponRowsWithEmail t = t.rows.map fun r => (⟨r, some "unknown"⟩ : CNRow) := by
  unfold couponRowsWithEmail
  have he := resolve_user_email_not_found _ _ _ _ h
  unfold coupons_resolution at he ⊢
  rw [he, List.map_map]
  rw [show ((fun _ => some "unknown") ∘ fun (r : CRow) => r.user) =
      fun _ => some "unknown" from rfl]
  rw [zip_map_of_self, List.map_map]
  rfl

lemma bookingRowsWithEmail_not_found (t : BTable)
    (h : (bookings_resolution t).2 = false) :
    bookingRowsWithEmail t = t.rows.map fun r => (⟨r, some "unknown"⟩ : NRow) := by
  unfold bookingRowsWithEmail
  have he := resolve_user_email_not_found _ _ _ _ h
  unfold bookings_resolution at he ⊢
  rw [he, List.map_map]
  rw [show ((fun _ => some "unknown") ∘ fun (r : BRow) => r.user) =
      fun _ => some "unknown" from rfl]
  rw [zip_map_of_self, List.map_map]
  rfl

/-- Claim C7 (amended): a transport error, an HTTP status in 400-599
(the statuses on which `raise_for_status` raises) or an unusable body
each yield a surfaced error and an empty table; statuses 300-399 pass
`raise_for_status`, so a non-2xx status below 400 carrying a valid
payload is returned as data.  If any of the three fetched tables is
empty the pipeline halts before computing any summary metric, and
metrics are only ever produced when all three tables are nonempty. -/
theorem fetch_failure_and_empty_halt_spec (α β γ : Type) :
    fetch_from_directus (FetchOutcome.transportError (α := α)) = ([], true)
    ∧ (∀ (s : Nat) (d : Option (List α)), 400 ≤ s → s < 600 →
        fetch_from_directus (FetchOutcome.response s d) = ([], true))
    ∧ (∀ s : Nat, fetch_from_directus (FetchOutcome.response (α := α) s none) = ([], true))
    ∧ (∀ (b : List α) (c : List β) (s : List γ),
        (b.isEmpty || c.isEmpty || s.isEmpty) = true → summary_stage b c s = none)
    ∧ (∀ (b : List α) (c : List β) (s : List γ) (m : SummaryMetrics),
        summary_stage b c s = some m → b ≠ [] ∧ c ≠ [] ∧ s ≠ []) := by
  refine ⟨rfl, ?_, ?_, ?_, ?_⟩
  · intro s d h1 h2
    unfold fetch_from_directus raise_for_status_raises
    simp [h1, h2]
  · intro s
    by_cases h : raise_for_status_raises s <;> simp [fetch_from_directus, h]
  · intro b c s h
    unfold summary_stage
    rw [if_pos h]
  · intro b c s m h
    unfold summary_stage at h
    split_ifs at h with hcond
    simp only [Bool.or_eq_true, List.isEmpty_iff] at hcond
    push_neg at hcond
    exact ⟨hcond.1.1, hcond.1.2, hcond.2⟩

theorem fetch_failure_and_empty_halt_spec_witness :
    fetch_from_directus (FetchOutcome.response (α := Nat) 404 (some [5])) = ([], true)
    ∧ summary_stage ([] : List Nat) [1] [2] = none := by
  have h := fetch_failure_and_empty_halt_spec Nat Nat Nat
  exact ⟨h.2.1 404 (some [5]) (by norm_num) (by norm_num),
    h.2.2.2.1 [] [1] [2] (by decide)⟩

/-- Claim C7, counterexample to the claim as stated: a (hypothetical)
final response with the non-2xx status 300 and a valid `data` payload
is returned as data with no error surfaced, because
`raise_for_status` only raises for statuses 400-599. -/
theorem fetch_non2xx_cex :
    fetch_from_directus (FetchOutcome.response (α := Nat) 300 (some [7])) = ([7], false)
    ∧ ¬ (200 ≤ 300 ∧ 300 < 300) := by
  exact ⟨rfl, by omega⟩

/-- Claim C10: the bookings and coupons normalizations are pure
functions of the raw tables: equal raw inputs give equal outputs. -/
theorem normalization_deterministic_spec (t1 t2 : BTable) (u1 u2 : CTable)
    (hb : t1 = t2) (hc : u1 = u2) :
    load_bookings_data t1 = load_bookings_data t2
    ∧ load_coupons_data u1 = load_coupons_data u2 := by
  subst hb
  subst hc
  exact ⟨rfl, rfl⟩

theorem normalization_deterministic_spec_witness :
    load_bookings_data
        ⟨false, false, false, false, false, false, false, false, false, false, false, []⟩ =
      load_bookings_data
        ⟨false, false, false, false, false, false, false, false, false, false, false, []⟩
    ∧ load_coupons_data ⟨false, false, []⟩ = load_coupons_data ⟨false, false, []⟩ :=
  normalization_deterministic_spec _ _ _ _ rfl rfl

/-- Claim C4 (amended): user-email resolution for bookings and coupons
(the same chain, `resolve_user_email`): (1) when a `user` column exists
and its first observed value is an object exposing an email member,
emails are extracted element-wise with null for non-object values;
(2) when NO `user` column exists and a flat `user.email` column does,
it is used directly; (3) otherwise the sentinel is used for every
record.  In particular, when a `user` column exists whose first value
is not an email-bearing object, the sentinel is used even if a flat
`user.email` column is present.  Resolution is a total function and
never raises. -/
theorem user_email_resolution_spec (hU hD : Bool) (uc : List UserCell)
    (dc : List (Option String)) :
    (hU = true → headEmailObj uc.head? = true →
        resolve_user_email hU hD uc dc = (uc.map extractEmail, true))
    ∧ (hU = false → hD = true → resolve_user_email hU hD uc dc = (dc, true))
    ∧ (hU = false → hD = false →
        resolve_user_email hU hD uc dc = (uc.map fun _ => some "unknown", false))
    ∧ (hU = true → headEmailObj uc.head? = false →
        resolve_user_email hU hD uc dc = (uc.map fun _ => some "unknown", false))
    ∧ extractEmail UserCell.other = none := by
  refine ⟨?_, ?_, ?_, ?_, rfl⟩ <;> intro h1 h2 <;> simp [resolve_user_email, h1, h2]

theorem user_email_resolution_spec_witness :
    resolve_user_email true false [UserCell.obj (some "a")] [] = ([some "a"], true) := by
  have h := (user_email_resolution_spec true false [UserCell.obj (some "a")] []).1 rfl rfl
  simpa using h

def exC4 : CTable := ⟨true, true, [⟨UserCell.other, some "someone", none⟩]⟩

/-- Claim C4, counterexample to the claim as stated: on a coupons table
whose `user` column holds a bare id while a flat `user.email` column is
present, the source's `elif` skips the flat column and resolution falls
to the sentinel instead of using `user.email`. -/
theorem user_email_resolution_cex :
    (load_coupons_data exC4).map (·.user_email) = [some "unknown"]
    ∧ exC4.hasUserDotEmail = true
    ∧ exC4.rows.map (·.userDotEmail) = [some "someone"]
    ∧ (some "unknown" : Option String) ≠ some "someone" := by
  refine ⟨by decide, rfl, rfl, by decide⟩

/-- Claim C8 (amended): when emails were found and every resolved
email is present (the line-151 mask contains no NA), no row of the
normalized coupons table carries a resolved email that
case-insensitively contains one of the staff fragments - such records
are excluded by the filter of line 151; in degraded mode every email is
the sentinel `unknown`, which contains no fragment, so the property
also holds there.  (When some resolved email is missing, the mask
raises, the bare `except` of line 153 skips the filter wholesale, and
staff-fragment records are retained; see the counterexample.) -/
theorem coupon_staff_exclusion_spec (t : CTable) (nr : CNRow) (e : String)
    (hall : (couponRowsWithEmail t).all (fun q => q.user_email.isSome) = true)
    (hmem : nr ∈ load_coupons_data t) (he : nr.user_email = some e) :
    containsAnyFrag (lowerData e) = false := by
  unfold load_coupons_data at hmem
  by_cases hemp : t.rows.isEmpty
  · rw [if_pos hemp] at hmem
    simp at hmem
  · rw [if_neg hemp] at hmem
    by_cases hf : (coupons_resolution t).2
    · rw [if_pos hf, if_pos hall] at hmem
      have hpass := (List.mem_filter.mp hmem).2
      unfold coupon_email_pass at hpass
      rw [he] at hpass
      simpa using hpass
    · rw [if_neg hf] at hmem
      have hf2 : (coupons_resolution t).2 = false := by simpa using hf
      rw [couponRowsWithEmail_not_found t hf2] at hmem
      rcases List.mem_map.mp hmem with ⟨r, _, rfl⟩
      simp only at he
      have : e = "unknown" := by
        have := he.symm
        injection this
      subst this
      decide

theorem coupon_staff_exclusion_spec_witness :
    containsAnyFrag (lowerData "ok") = false := by
  have h := coupon_staff_exclusion_spec ⟨true, false, [⟨UserCell.obj (some "ok"), none, none⟩]⟩
    ⟨⟨UserCell.obj (some "ok"), none, none⟩, some "ok"⟩ "ok" (by decide) (by decide) rfl
  exact h

def exC8 : CTable :=
  ⟨true, false,
    [⟨UserCell.obj (some "andre@kallbad.se"), none, some "klippkort"⟩,
     ⟨UserCell.other, none, none⟩]⟩

/-- Claim C8, counterexample to the claim as stated: with emails found
(first `user` value is an email-bearing dict) but the second row's
`user` a bare value, element-wise extraction leaves that row's email
missing, the line-151 mask raises on the NA, the bare `except` of line
153 skips the filter, and the staff-fragment record
`andre@kallbad.se` stays in the normalized coupons table. -/
theorem coupon_staff_exclusion_cex :
    (load_coupons_data exC8).map (·.user_email) = [some "andre@kallbad.se", none]
    ∧ containsAnyFrag (lowerData "andre@kallbad.se") = true := by
  exact ⟨by decide, by decide⟩

/-- Claim C9 (implicit): when no email column was resolved
(`user_email_found` is false, every `user_email` is the sentinel), the
test-account filter on bookings and the staff-fragment filter on
coupons are both skipped: bookings are reduced only by the status
filter and coupons are passed through unfiltered, so those records
reach every downstream aggregate. -/
theorem degraded_mode_no_email_filter_spec (tb : BTable) (tc : CTable) :
    ((bookings_resolution tb).2 = false →
      load_bookings_data tb =
        (tb.rows.map fun r => (⟨r, some "unknown"⟩ : NRow)).filter
          fun nr => statusPass tb.hasStatus nr.raw)
    ∧ ((coupons_resolution tc).2 = false →
      load_coupons_data tc = tc.rows.map fun r => (⟨r, some "unknown"⟩ : CNRow)) := by
  constructor
  · intro h
    by_cases hemp : tb.rows.isEmpty
    · unfold load_bookings_data
      rw [if_pos hemp, List.isEmpty_iff.mp hemp]
      rfl
    · unfold load_bookings_data
      rw [if_neg hemp]
      simp only [h, Bool.false_eq_true, if_false]
      rw [bookingRowsWithEmail_not_found tb h]
  · intro h
    by_cases hemp : tc.rows.isEmpty
    · unfold load_coupons_data
      rw [if_pos hemp, List.isEmpty_iff.mp hemp]
      rfl
    · unfold load_coupons_data
      rw [if_neg hemp]
      simp only [h, Bool.false_eq_true, if_false]
      exact couponRowsWithEmail_not_found tc h

lemma slot_length_category_ge3 (x : ℤ) (h : 3 ≤ x) :
    slot_length_category x = "3+ timmar" := by
  unfold slot_length_category
  rw [if_neg (by omega), if_neg (by omega)]

/-- Claim C3 (amended): on rounded slot lengths of at least one hour
the category is exactly one of the three buckets and is a
deterministic, monotonic function of the rounded length: 1 maps to
`1 timme`, 2 maps to `2 timmar` and 3 or more maps to `3+ timmar`.
(Rounded lengths below one produce labels such as `0 timme` outside
the buckets; see the counterexample.) -/
theorem slot_length_category_spec (x y : ℤ) (hx : 1 ≤ x) :
    slot_length_category x ∈ bucket_strings
    ∧ (x ≤ 1 → slot_length_category x = "1 timme")
    ∧ (1 < x → x ≤ 2 → slot_length_category x = "2 timmar")
    ∧ (2 < x → slot_length_category x = "3+ timmar")
    ∧ (∀ z : ℤ, x = z → slot_length_category x = slot_length_category z)
    ∧ (1 ≤ y → x ≤ y →
        bucket_rank (slot_length_category x) ≤ bucket_rank (slot_length_category y)) := by
  have hcase : ∀ z : ℤ, 1 ≤ z →
      (z = 1 ∧ slot_length_category z = "1 timme") ∨
      (z = 2 ∧ slot_length_category z = "2 timmar") ∨
      (3 ≤ z ∧ slot_length_category z = "3+ timmar") := by
    intro z hz
    rcases show z = 1 ∨ z = 2 ∨ 3 ≤ z by omega with h | h | h
    · subst h; exact Or.inl ⟨rfl, by decide⟩
    · subst h; exact Or.inr (Or.inl ⟨rfl, by decide⟩)
    · exact Or.inr (Or.inr ⟨h, slot_length_category_ge3 z h⟩)
  refine ⟨?_, ?_, ?_, ?_, ?_, ?_⟩
  · rcases hcase x hx with ⟨_, hc⟩ | ⟨_, hc⟩ | ⟨_, hc⟩ <;> rw [hc] <;> decide
  · intro h1
    rcases hcase x hx with ⟨_, hc⟩ | ⟨he, _⟩ | ⟨he, _⟩
    · exact hc
    · omega
    · omega
  · intro h1 h2
    rcases hcase x hx with ⟨he, _⟩ | ⟨_, hc⟩ | ⟨he, _⟩
    · omega
    · exact hc
    · omega
  · intro h1
    rcases hcase x hx with ⟨he, _⟩ | ⟨he, _⟩ | ⟨_, hc⟩
    · omega
    · omega
    · exact hc
  · intro z hz
    rw [hz]
  · intro hy hxy
    rcases hcase x hx with ⟨hex, hcx⟩ | ⟨hex, hcx⟩ | ⟨hex, hcx⟩ <;>
      rcases hcase y hy with ⟨hey, hcy⟩ | ⟨hey, hcy⟩ | ⟨hey, hcy⟩ <;>
      rw [hcx, hcy] <;> first | decide | omega

theorem slot_length_category_spec_witness :
    slot_length_category 1 ∈ bucket_strings
    ∧ slot_length_category 3 = "3+ timmar"
    ∧ bucket_rank (slot_length_category 1) ≤ bucket_rank (slot_length_category 2) := by
  have h1 := slot_length_category_spec 1 2 (by norm_num)
  have h3 := slot_length_category_spec 3 3 (by norm_num)
  exact ⟨h1.1, h3.2.2.2.1 (by norm_num), h1.2.2.2.2.2 (by norm_num) (by norm_num)⟩

/-- Claim C3, counterexample to the claim as stated: a slot of half an
hour rounds to 0 hours (half-to-even), and the category formula
produces the label `0 timme`, which is not one of the three buckets,
instead of the claimed 1-hour bucket for rounded values below one. -/
theorem slot_length_category_cex :
    slot_length_category (slot_length 0 (1/2)) = "0 timme"
    ∧ "0 timme" ∉ bucket_strings := by
  have hfl : ⌊(1:ℚ)/2⌋ = 0 :=
    Int.floor_eq_zero_iff.mpr (Set.mem_Ico.mpr ⟨by norm_num, by norm_num⟩)
  have hsl : slot_length 0 (1/2) = 0 := by
    unfold slot_length rndNE
    rw [sub_zero, hfl]
    norm_num
  rw [hsl]
  exact ⟨by decide, by decide⟩

/-- Claim C1 (amended): `used_seats` is `10 - available_seats` for rows
with a numeric `available_seats` (0 where the value is missing, via
`fillna(0)`), and 0 for every row when the column is absent; the
embedded-bookings summation of line 553 never replaces the column,
because its guard requires `used_seats` to be absent while lines
324/327 have already assigned it in both branches. -/
theorem slots_used_seats_spec (t : SlotsTable) (r : SlotRow) (a : ℤ) :
    slotsUsedSeats t = t.rows.map (usedSeatsVal t.hasAvailable)
    ∧ (r.available_seats = some a → usedSeatsVal true r = 10 - a)
    ∧ (r.available_seats = none → usedSeatsVal true r = 0)
    ∧ usedSeatsVal false r = 0 := by
  refine ⟨?_, ?_, ?_, rfl⟩
  · unfold slotsUsedSeats rowUsedSeats used_seats_column_present
    simp
  · intro h
    unfold usedSeatsVal
    rw [if_pos rfl, h]
  · intro h
    unfold usedSeatsVal
    rw [if_pos rfl, h]

theorem slots_used_seats_spec_witness :
    usedSeatsVal true ⟨2025, 1, some 4, none⟩ = 10 - 4 :=
  (slots_used_seats_spec ⟨true, false, []⟩ ⟨2025, 1, some 4, none⟩ 4).2.1 rfl

def exC1 : SlotsTable :=
  ⟨false, true, [⟨2025, 1, none, some [BookingCell.obj (some (SeatVal.num 5))]⟩]⟩

/-- Claim C1, counterexample to the claim as stated: a slots table with
no `available_seats` column whose single row embeds a booking of 5
seats gets `used_seats = 0` from the pipeline (line 327), not the
embedded sum 5 that `count_booked_seats` would give, because the guard
of line 538 finds `used_seats` already present. -/
theorem slots_used_seats_embedded_cex :
    slotsUsedSeats exC1 = [0]
    ∧ count_booked_seats (some [BookingCell.obj (some (SeatVal.num 5))]) = 5
    ∧ (0 : ℤ) ≠ 5 := by
  exact ⟨by decide, by decide, by decide⟩

/-- Claim C5 (amended): in the terminal fallback (no slot resolution
strategy applied), every processed row gets `slot_description`
`Unknown` and a synthetic end time exactly one hour after its start
time; the start is `date_created` when that column exists, else the
fixed placeholder date, so in the latter case both times are non-null;
whenever the start is non-null the end is too and the ordering
`slot_start_time <= slot_end_time` holds.  (When slot times come from
the data itself, individual rows can still be null and unordered; see
the counterexample.) -/
lemma applySlotFields_fallback_dc (t : BTable) (nr : NRow)
    (h : t.hasDateCreated = true) :
    applySlotFields t SlotStrat.fallback nr =
      ⟨nr.raw, nr.user_email, nr.raw.date_created, nr.raw.date_created.map (· + 1),
        some "Unknown"⟩ := by
  unfold applySlotFields
  rw [h]
  rfl

lemma applySlotFields_fallback_nodc (t : BTable) (nr : NRow)
    (h : t.hasDateCreated = false) :
    applySlotFields t SlotStrat.fallback nr =
      ⟨nr.raw, nr.user_email, some placeholder_date, some (placeholder_date + 1),
        some "Unknown"⟩ := by
  unfold applySlotFields
  rw [h]
  rfl

theorem slot_placeholder_fallback_spec (t : BTable) (r : ProcRow)
    (hstrat : slotStrat t (load_bookings_data t) = SlotStrat.fallback)
    (hr : r ∈ process_bookings t) :
    r.slot_description = some "Unknown"
    ∧ r.slot_end_time = r.slot_start_time.map (· + 1)
    ∧ (∀ s : ℚ, r.slot_start_time = some s → r.slot_end_time = some (s + 1) ∧ s ≤ s + 1)
    ∧ (t.hasDateCreated = false →
        r.slot_start_time = some placeholder_date
        ∧ r.slot_end_time = some (placeholder_date + 1)) := by
  unfold process_bookings at hr
  rw [hstrat] at hr
  rcases List.mem_map.mp hr with ⟨nr, _, rfl⟩
  cases hdc : t.hasDateCreated with
  | true =>
    rw [applySlotFields_fallback_dc t nr hdc]
    refine ⟨rfl, rfl, ?_, ?_⟩
    · intro s hs
      have hs2 : nr.raw.date_created = some s := hs
      constructor
      · show nr.raw.date_created.map (· + 1) = some (s + 1)
        rw [hs2]
        rfl
      · linarith
    · intro hfalse
      exact absurd hfalse (by simp)
  | false =>
    rw [applySlotFields_fallback_nodc t nr hdc]
    refine ⟨rfl, rfl, ?_, fun _ => ⟨rfl, rfl⟩⟩
    intro s hs
    have hs2 : some placeholder_date = some s := hs
    have hps : placeholder_date = s := by injection hs2
    subst hps
    exact ⟨rfl, by linarith⟩

def exC5W : BTable :=
  ⟨false, false, false, false, false, false, false, false, false, false, false,
    [⟨UserCell.other, none, SlotCell.other, none, none, none, none, none, none,
      none, none, none⟩]⟩

theorem slot_placeholder_fallback_spec_witness :
    (⟨⟨UserCell.other, none, SlotCell.other, none, none, none, none, none, none,
        none, none, none⟩, some "unknown", some placeholder_date,
      some (placeholder_date + 1), some "Unknown"⟩ : ProcRow).slot_description =
        some "Unknown"
    ∧ (⟨⟨UserCell.other, none, SlotCell.other, none, none, none, none, none, none,
        none, none, none⟩, some "unknown", some placeholder_date,
      some (placeholder_date + 1), some "Unknown"⟩ : ProcRow).slot_start_time =
        some placeholder_date := by
  have hmem : (⟨⟨UserCell.other, none, SlotCell.other, none, none, none, none, none,
      none, none, none, none⟩, some "unknown", some placeholder_date,
      some (placeholder_date + 1), some "Unknown"⟩ : ProcRow) ∈ process_bookings exC5W := by
    show _ ∈ process_bookings exC5W
    exact (show process_bookings exC5W = [_] from rfl) ▸ List.mem_singleton.mpr rfl
  have h := slot_placeholder_fallback_spec exC5W _ rfl hmem
  exact ⟨h.1, (h.2.2.2 rfl).1⟩

def exC5 : BTable :=
  ⟨false, false, true, false, false, false, false, false, false, false, false,
    [⟨UserCell.other, none, SlotCell.obj (some 0) (some 1) none, none, none, none,
      none, none, none, none, none, none⟩,
     ⟨UserCell.other, none, SlotCell.other, none, none, none, none, none, none,
      none, none, none⟩]⟩

/-- Claim C5, counterexample to the claim as stated: when the first row
embeds a slot object, strategy 1 fires for the whole table and a later
row whose `slot` cell is not an object gets a null `slot_start_time`,
so processed slot times are not never-null. -/
theorem slot_times_nonnull_cex :
    (process_bookings exC5).map (·.slot_start_time) = [some 0, none]
    ∧ (process_bookings exC5).length = 2 := by
  exact ⟨rfl, rfl⟩

lemma round2_zero : round2 0 = 0 := by
  unfold round2 rndNE
  norm_num

lemma utilizationRate_zero_num (c : ℤ) (hc : 0 < c) : utilizationRate 0 c = 0 := by
  unfold utilizationRate
  rw [if_pos hc]
  have hz : ((0:ℤ):ℚ) / (c:ℚ) * 100 = 0 := by
    push_cast
    rw [zero_div, zero_mul]
  rw [hz, round2_zero]

/-- Claim C2 (amended): every (year, month) utilization row has
`utilization_rate` in [0, 100] (given per-slot `available_seats` in
0..10) and a strictly positive `total_capacity` (every group contains
at least one slot of capacity 10), so the guarded division never runs
with a zero denominator; the guard itself returns 0 at zero capacity
for both the monthly and the overall rate, and the overall rate also
lies in [0, 100].  (The rate is NOT zero exactly when capacity is
zero: a nonempty group with no used seats also has rate 0; see the
counterexample.) -/
theorem monthly_utilization_rate_bounds (t : SlotsTable)
    (h : ∀ r ∈ t.rows, ∀ a : ℤ, r.available_seats = some a → 0 ≤ a ∧ a ≤ 10) :
    (∀ row ∈ monthly_slots t,
        0 ≤ row.utilization_rate ∧ row.utilization_rate ≤ 100 ∧ 0 < row.total_capacity)
    ∧ (∀ u : ℤ, utilizationRate u 0 = 0)
    ∧ (∀ u : ℤ, overall_utilization_rate u 0 = 0)
    ∧ (0 ≤ overall_rate t ∧ overall_rate t ≤ 100) := by
  refine ⟨?_, fun u => rfl, fun u => rfl, ?_⟩
  · intro row hrow
    rcases (mem_monthly_slots t row).mp hrow with ⟨hk, _, hrfl⟩
    have hcap := slotGroupCapacity_pos t (row.year, row.month) hk
    have hused := slotGroup_used_bounds t (row.year, row.month) h
    have hbnd := utilizationRate_bounds_aux (slotGroupUsed t (row.year, row.month))
      (slotGroupCapacity t (row.year, row.month)) hused.1 hused.2 hcap
    rw [hrfl]
    exact ⟨hbnd.1, hbnd.2, hcap⟩
  · have h0 : 0 ≤ total_used_all t := by
      apply List.sum_nonneg
      intro x hx
      rcases List.mem_map.mp hx with ⟨r, hr, rfl⟩
      exact (rowUsedSeats_bounds t r (h r hr)).1
    have h1 : total_used_all t ≤ total_capacity_all t := by
      apply List.sum_le_sum
      intro r hr
      exact (rowUsedSeats_bounds t r (h r hr)).2
    by_cases hc : 0 < total_capacity_all t
    · unfold overall_rate overall_utilization_rate
      rw [if_pos hc]
      have hcq : (0:ℚ) < (total_capacity_all t : ℚ) := by exact_mod_cast hc
      have h0q : (0:ℚ) ≤ (total_used_all t : ℚ) := by exact_mod_cast h0
      have h1q : (total_used_all t : ℚ) ≤ (total_capacity_all t : ℚ) := by exact_mod_cast h1
      have hd0 : (0:ℚ) ≤ (total_used_all t : ℚ) / (total_capacity_all t : ℚ) :=
        div_nonneg h0q hcq.le
      have hd1 : (total_used_all t : ℚ) / (total_capacity_all t : ℚ) ≤ 1 :=
        (div_le_one hcq).mpr h1q
      constructor <;> nlinarith
    · unfold overall_rate overall_utilization_rate
      rw [if_neg hc]
      norm_num

def exC2W : SlotsTable := ⟨true, false, [⟨2025, 1, some 3, none⟩]⟩

theorem monthly_utilization_rate_bounds_witness :
    0 ≤ (⟨2025, 1, 10, 7, 3, utilizationRate 7 10⟩ : MonthlySlotRow).utilization_rate
    ∧ (⟨2025, 1, 10, 7, 3, utilizationRate 7 10⟩ : MonthlySlotRow).utilization_rate ≤ 100
    ∧ 0 < (⟨2025, 1, 10, 7, 3, utilizationRate 7 10⟩ : MonthlySlotRow).total_capacity := by
  have hhyp : ∀ r ∈ exC2W.rows, ∀ a : ℤ, r.available_seats = some a → 0 ≤ a ∧ a ≤ 10 := by
    intro r hr a ha
    simp only [exC2W, List.mem_singleton] at hr
    subst hr
    have h3 : (3 : ℤ) = a := by injection ha
    omega
  have hmem : (⟨2025, 1, 10, 7, 3, utilizationRate 7 10⟩ : MonthlySlotRow) ∈
      monthly_slots exC2W :=
    (show monthly_slots exC2W = [⟨2025, 1, 10, 7, 3, utilizationRate 7 10⟩] from rfl) ▸
      List.mem_singleton.mpr rfl
  exact (monthly_utilization_rate_bounds exC2W hhyp).1 _ hmem

def exC2 : SlotsTable := ⟨true, false, [⟨2025, 1, some 10, none⟩]⟩

/-- Claim C2, counterexample to the claim as stated: a January 2025
group consisting of one fully available slot has `total_capacity = 10`
and `utilization_rate = 0`, so the rate is zero without the capacity
being zero, refuting that the rate equals 0 exactly when capacity is. -/
theorem utilization_rate_zero_iff_cex :
    monthly_slots exC2 = [⟨2025, 1, 10, 0, 10, utilizationRate 0 10⟩]
    ∧ utilizationRate 0 10 = 0
    ∧ (⟨2025, 1, 10, 0, 10, utilizationRate 0 10⟩ : MonthlySlotRow).total_capacity ≠ 0 := by
  refine ⟨rfl, utilizationRate_zero_num 10 (by norm_num), by decide⟩

/-- Claim C6: the monthly aggregates contain exactly the (year, month)
groups present in the data that satisfy the December 2024 start
boundary (`year > 2024` or `year = 2024 and month >= 12`), so every
record dated November 2024 or earlier is excluded; each bookings group
carries the sum of `booked_seats` (the row count when that column is
absent); and both outputs are sorted ascending by `year*12 + month`. -/
theorem monthly_aggregation_spec (hs : Bool) (rs : List MRec) (t : SlotsTable)
    (k : ℤ × ℤ) (p : (ℤ × ℤ) × ℤ) :
    (k ∈ (monthly_bookings hs rs).map Prod.fst ↔
        k ∈ rs.map mKey ∧ start_boundary k.1 k.2 = true)
    ∧ (start_boundary k.1 k.2 = true ↔ (2024 < k.1 ∨ (k.1 = 2024 ∧ 12 ≤ k.2)))
    ∧ ((k.1 < 2024 ∨ (k.1 = 2024 ∧ k.2 ≤ 11)) →
        k ∉ (monthly_bookings hs rs).map Prod.fst)
    ∧ (p ∈ monthly_bookings hs rs → p.2 = mGroupValue hs rs p.1)
    ∧ List.Sorted (fun a b => month_order a.1 ≤ month_order b.1) (monthly_bookings hs rs)
    ∧ (k ∈ (monthly_slots t).map msKey ↔
        k ∈ t.rows.map slotKey ∧ start_boundary k.1 k.2 = true)
    ∧ List.Sorted (fun a b => month_order (msKey a) ≤ month_order (msKey b))
        (monthly_slots t) := by
  have hbkeys : ∀ q : ℤ × ℤ, q ∈ (monthly_bookings hs rs).map Prod.fst ↔
      (q ∈ rs.map mKey ∧ start_boundary q.1 q.2 = true) := by
    intro q
    constructor
    · intro hq
      rcases List.mem_map.mp hq with ⟨w, hw, rfl⟩
      have hw2 := (mem_monthly_bookings hs rs w).mp hw
      exact ⟨hw2.1, hw2.2.1⟩
    · rintro ⟨h1, h2⟩
      exact List.mem_map.mpr ⟨(q, mGroupValue hs rs q),
        (mem_monthly_bookings hs rs _).mpr ⟨h1, h2, rfl⟩, rfl⟩
  refine ⟨hbkeys k, ?_, ?_, ?_, ?_, ?_, ?_⟩
  · simp [start_boundary, Bool.or_eq_true, Bool.and_eq_true, decide_eq_true_eq]
  · intro hlt hmem
    have hb := ((hbkeys k).mp hmem).2
    simp only [start_boundary, Bool.or_eq_true, Bool.and_eq_true,
      decide_eq_true_eq] at hb
    rcases hlt with h1 | ⟨h1, h2⟩ <;> rcases hb with h3 | ⟨h4, h5⟩ <;> omega
  · intro hp
    exact ((mem_monthly_bookings hs rs p).mp hp).2.2
  · unfold monthly_bookings
    exact sorted_sortByMonthOrder _ _
  · constructor
    · intro hk
      rcases List.mem_map.mp hk with ⟨row, hrow, rfl⟩
      have hrow2 := (mem_monthly_slots t row).mp hrow
      exact ⟨hrow2.1, hrow2.2.1⟩
    · rintro ⟨h1, h2⟩
      exact List.mem_map.mpr ⟨mkMonthlySlotRow t k,
        (mem_monthly_slots t _).mpr ⟨h1, h2, rfl⟩, rfl⟩
  · unfold monthly_slots
    exact sorted_sortByMonthOrder _ _

def exC6Recs : List MRec := [⟨2024, 11, 2⟩, ⟨2025, 1, 3⟩]

theorem monthly_aggregation_spec_witness :
    (2024, 11) ∉ (monthly_bookings true exC6Recs).map Prod.fst
    ∧ (2025, 1) ∈ (monthly_bookings true exC6Recs).map Prod.fst := by
  constructor
  · exact (monthly_aggregation_spec true exC6Recs ⟨false, false, []⟩ (2024, 11)
      ((2025, 1), 3)).2.2.1 (Or.inr ⟨rfl, by norm_num⟩)
  · exact ((monthly_aggregation_spec true exC6Recs ⟨false, false, []⟩ (2025, 1)
      ((2025, 1), 3)).1).mpr ⟨by decide, by decide⟩

def exC9B : BTable :=
  ⟨true, false, false, false, false, false, false, false, false, false, true,
    [⟨UserCell.other, none, SlotCell.other, none, none, none, none, none, none,
      none, some "cancelled", some 2⟩,
     ⟨UserCell.other, none, SlotCell.other, none, none, none, none, none, none,
      none, none, some 3⟩]⟩

def exC9C : CTable := ⟨true, true, [⟨UserCell.other, some "andre@kallbad.se", some "klippkort"⟩]⟩

theorem degraded_mode_no_email_filter_spec_witness :
    load_bookings_data exC9B =
      (exC9B.rows.map fun r => (⟨r, some "unknown"⟩ : NRow)).filter
        (fun nr => statusPass exC9B.hasStatus nr.raw)
    ∧ load_coupons_data exC9C = exC9C.rows.map fun r => (⟨r, some "unknown"⟩ : CNRow) := by
  have h := degraded_mode_no_email_filter_spec exC9B exC9C
  exact ⟨h.1 (by decide), h.2 (by decide)⟩
